import Mathlib

/-! HomeWorkCPP7.3.3: log messages routed through a chain of responsibility.

A shallow embedding of `src/HomeWorkCPP7.3.3.cpp`.

* The four concrete message classes are the constructors of `LogMessage`;
  the virtual member functions `type()` and `message()` are functions on it.
* An `ErrorHandler` object is its dynamic class together with the owned
  `next` pointer (`none` is the null pointer).
* The two `std::ostream&` arguments are passed as explicit state: `Sinks`
  holds the characters written so far to each stream.  Both streams are taken
  to be writable (good state), and `std::endl` contributes the character
  `'\n'`.
* A call either returns, throws `std::runtime_error(what)`, or has undefined
  behaviour (`Outcome`).
-/

namespace HomeWorkCPP

/-! ## Messages -/

/-- The enumeration `LogMessage::Type`. -/
inductive LogMessageType
  | warning
  | error
  | fatal_error
  | unknown_message
  deriving DecidableEq

/-- The concrete classes deriving from `LogMessage`; none of them has data members. -/
inductive LogMessage
  | WarningMessage
  | ErrorsMessage
  | FatalErrorsMessage
  | UnknownMessage
  deriving DecidableEq

/-- The virtual member function `type()`. -/
def LogMessage.type : LogMessage → LogMessageType
  | .WarningMessage => .warning
  | .ErrorsMessage => .error
  | .FatalErrorsMessage => .fatal_error
  | .UnknownMessage => .unknown_message

/-- The virtual member function `message()`.  The value is the `const char*` from which
the returned `std::string` is built: `some s` for a string literal, `none` for the
`return nullptr;` of `UnknownMessage::message`. -/
def LogMessage.message : LogMessage → Option String
  | .WarningMessage => some "The file is open"
  | .ErrorsMessage => some "End of file"
  | .FatalErrorsMessage => some "File opening error"
  | .UnknownMessage => none

/-! ## Effects -/

/-- How a call ends: it returns a value, it throws `std::runtime_error(what)`, or its
behaviour is undefined (a `std::string` built from the null pointer). -/
inductive Outcome (α : Type)
  | returned (a : α)
  | thrown (what : String)
  | undefined
  deriving DecidableEq

/-- The characters written so far to the two streams handed to every dispatch. -/
structure Sinks where
  console : String
  file : String
  deriving DecidableEq

/-! ## Handlers -/

/-- The concrete classes deriving from `ErrorHandler`. -/
inductive HandlerClass
  | Warning
  | Errors
  | FatalErrors
  deriving DecidableEq

/-- An `ErrorHandler` object: its dynamic class and the owned pointer `next`. -/
inductive ErrorHandler
  | mk (cls : HandlerClass) (next : Option ErrorHandler)

/-- The expression `std::make_unique<Warning>(next)`. -/
def Warning (next : Option ErrorHandler) : ErrorHandler := .mk .Warning next

/-- The expression `std::make_unique<Errors>(next)`. -/
def Errors (next : Option ErrorHandler) : ErrorHandler := .mk .Errors next

/-- The expression `std::make_unique<FatalErrors>(next)`. -/
def FatalErrors (next : Option ErrorHandler) : ErrorHandler := .mk .FatalErrors next

/-- `Warning::handleError`.  In `console << "Warning: " << msg.message() << std::endl` the
prefix is inserted before `msg.message()` is evaluated. -/
def Warning.handleError (msg : LogMessage) (s : Sinks) : Outcome Bool × Sinks :=
  if msg.type ≠ .warning then (.returned false, s)
  else
    match msg.message with
    | some text => (.returned true, ⟨s.console ++ "Warning: " ++ text ++ "\n", s.file⟩)
    | none => (.undefined, ⟨s.console ++ "Warning: ", s.file⟩)

/-- `Errors::handleError`. -/
def Errors.handleError (msg : LogMessage) (s : Sinks) : Outcome Bool × Sinks :=
  if msg.type ≠ .error then (.returned false, s)
  else
    match msg.message with
    | some text => (.returned true, ⟨s.console, s.file ++ text ++ "\n"⟩)
    | none => (.undefined, s)

/-- `FatalErrors::handleError`; the `return true;` after the `throw` is never reached. -/
def FatalErrors.handleError (msg : LogMessage) (s : Sinks) : Outcome Bool × Sinks :=
  if msg.type ≠ .fatal_error then (.returned false, s)
  else
    match msg.message with
    | some text => (.thrown ("Fatal error: " ++ text), s)
    | none => (.undefined, s)

/-- The virtual call `handleError(msg, console, file)` on a handler object. -/
def ErrorHandler.handleError : ErrorHandler → LogMessage → Sinks → Outcome Bool × Sinks
  | .mk .Warning _, msg, s => Warning.handleError msg s
  | .mk .Errors _, msg, s => Errors.handleError msg s
  | .mk .FatalErrors _, msg, s => FatalErrors.handleError msg s

/-- `ErrorHandler::receiveError`. -/
def ErrorHandler.receiveError : ErrorHandler → LogMessage → Sinks → Outcome Unit × Sinks
  | .mk cls next, msg, s =>
    match ErrorHandler.handleError (.mk cls next) msg s with
    | (.returned true, s') => (.returned (), s')
    | (.returned false, s') =>
      match next with
      | some n => n.receiveError msg s'
      | none => (.thrown "Error: The message was not processed!", s')
    | (.thrown what, s') => (.thrown what, s')
    | (.undefined, s') => (.undefined, s')

/-! ## Dispatch with a record of the calls made -/

/-- The calls a dispatch makes: the virtual call `handleError` on a node of the chain, and
the call `msg.message()`. -/
inductive Event
  | handleError (node : ErrorHandler)
  | message (msg : LogMessage)

/-- `Warning::handleError`, together with the calls of `msg.message()` it makes. -/
def Warning.handleErrorTraced (msg : LogMessage) (s : Sinks) :
    List Event × (Outcome Bool × Sinks) :=
  if msg.type ≠ .warning then ([], (.returned false, s))
  else
    match msg.message with
    | some text =>
      ([.message msg], (.returned true, ⟨s.console ++ "Warning: " ++ text ++ "\n", s.file⟩))
    | none => ([.message msg], (.undefined, ⟨s.console ++ "Warning: ", s.file⟩))

/-- `Errors::handleError`, together with the calls of `msg.message()` it makes. -/
def Errors.handleErrorTraced (msg : LogMessage) (s : Sinks) :
    List Event × (Outcome Bool × Sinks) :=
  if msg.type ≠ .error then ([], (.returned false, s))
  else
    match msg.message with
    | some text => ([.message msg], (.returned true, ⟨s.console, s.file ++ text ++ "\n"⟩))
    | none => ([.message msg], (.undefined, s))

/-- `FatalErrors::handleError`, together with the calls of `msg.message()` it makes. -/
def FatalErrors.handleErrorTraced (msg : LogMessage) (s : Sinks) :
    List Event × (Outcome Bool × Sinks) :=
  if msg.type ≠ .fatal_error then ([], (.returned false, s))
  else
    match msg.message with
    | some text => ([.message msg], (.thrown ("Fatal error: " ++ text), s))
    | none => ([.message msg], (.undefined, s))

/-- The virtual call `handleError(msg, console, file)`, with the calls made inside it. -/
def ErrorHandler.handleErrorTraced :
    ErrorHandler → LogMessage → Sinks → List Event × (Outcome Bool × Sinks)
  | .mk .Warning _, msg, s => Warning.handleErrorTraced msg s
  | .mk .Errors _, msg, s => Errors.handleErrorTraced msg s
  | .mk .FatalErrors _, msg, s => FatalErrors.handleErrorTraced msg s

/-- `ErrorHandler::receiveError`, with the calls it makes in the order it makes them: the
virtual call on the node itself, the calls inside that, then those of the call on `next`. -/
def ErrorHandler.receiveErrorTraced :
    ErrorHandler → LogMessage → Sinks → List Event × (Outcome Unit × Sinks)
  | .mk cls next, msg, s =>
    match ErrorHandler.handleErrorTraced (.mk cls next) msg s with
    | (t, (.returned true, s')) => (.handleError (.mk cls next) :: t, (.returned (), s'))
    | (t, (.returned false, s')) =>
      match next with
      | some n =>
        (.handleError (.mk cls next) :: t ++ (n.receiveErrorTraced msg s').1,
          (n.receiveErrorTraced msg s').2)
      | none =>
        (.handleError (.mk cls next) :: t, (.thrown "Error: The message was not processed!", s'))
    | (t, (.thrown what, s')) => (.handleError (.mk cls next) :: t, (.thrown what, s'))
    | (t, (.undefined, s')) => (.handleError (.mk cls next) :: t, (.undefined, s'))

/-! ## The driver -/

/-- The chain built in `main`: `fatal_error` owns `errors`, which owns `warning`, which owns
`news_error`. -/
def driverChain : ErrorHandler :=
  FatalErrors (some (Errors (some (Warning (some (Warning none))))))

/-- The statements of a `try` block that dispatches `msgs` in order to the handler `h`:
the first dispatch that does not return ends the block. -/
def tryBlock (h : ErrorHandler) : List LogMessage → Sinks → Outcome Unit × Sinks
  | [], s => (.returned (), s)
  | msg :: rest, s =>
    match h.receiveError msg s with
    | (.returned (), s') => tryBlock h rest s'
    | (.thrown what, s') => (.thrown what, s')
    | (.undefined, s') => (.undefined, s')

/-- The body of `main` for a chain head `h` and the messages `msgs` dispatched inside its
single `try` block; the handler `catch (const std::exception& err)` prints `err.what()`
to `std::cout`, and `main` then returns 0. -/
def driver (h : ErrorHandler) (msgs : List LogMessage) (s : Sinks) : Outcome Int × Sinks :=
  match tryBlock h msgs s with
  | (.returned (), s') => (.returned 0, s')
  | (.thrown what, s') => (.returned 0, ⟨s'.console ++ what ++ "\n", s'.file⟩)
  | (.undefined, s') => (.undefined, s')

/-- The function `main`, started with `s.console` already on `std::cout` and `s.file` the
contents of `out.txt` (opened in append mode). -/
def main (s : Sinks) : Outcome Int × Sinks :=
  driver driverChain [.WarningMessage, .ErrorsMessage, .UnknownMessage] s

/-! ## Vocabulary of the specification -/

/-- The classes of the nodes of a chain, entry node first. -/
def ErrorHandler.classes : ErrorHandler → List HandlerClass
  | .mk cls none => [cls]
  | .mk cls (some n) => cls :: n.classes

/-- The kind a node class recognizes: the one kind its `handleError` does not answer with
`return false`. -/
def HandlerClass.recognizes : HandlerClass → LogMessageType → Bool
  | .Warning, .warning => true
  | .Errors, .error => true
  | .FatalErrors, .fatal_error => true
  | _, _ => false

/-- The chain whose nodes have the classes `c :: cs`, entry node first. -/
def ErrorHandler.ofClasses (c : HandlerClass) : List HandlerClass → ErrorHandler
  | [] => .mk c none
  | d :: ds => .mk c (some (ErrorHandler.ofClasses d ds))

/-- The dynamic class of a node. -/
def ErrorHandler.cls : ErrorHandler → HandlerClass
  | .mk c _ => c

/-- The nodes of a chain, entry node first; each node is given with the chain it owns. -/
def ErrorHandler.nodes : ErrorHandler → List ErrorHandler
  | .mk c none => [.mk c none]
  | .mk c (some n) => .mk c (some n) :: n.nodes

/-- The nodes on which `handleError` was called, in call order. -/
def consulted : List Event → List ErrorHandler
  | [] => []
  | .handleError n :: t => n :: consulted t
  | .message _ :: t => consulted t

/-- What `receiveError` makes of the answer of the node that takes the message. -/
def handledBy (n : ErrorHandler) (msg : LogMessage) (s : Sinks) : Outcome Unit × Sinks :=
  match n.handleError msg s with
  | (.returned _, s') => (.returned (), s')
  | (.thrown what, s') => (.thrown what, s')
  | (.undefined, s') => (.undefined, s')

/-- Induction along a chain: the tail node first, then one more owning node in front. -/
theorem ErrorHandler.chain_induction {P : ErrorHandler → Prop}
    (tail : ∀ c, P (.mk c none)) (link : ∀ c n, P n → P (.mk c (some n))) :
    ∀ h, P h
  | .mk c none => tail c
  | .mk c (some n) => link c n (ErrorHandler.chain_induction tail link n)

/-- A node that does not recognize the kind answers `false` and leaves the sinks alone. -/
theorem handleError_of_not_recognizes (c : HandlerClass) (nx : Option ErrorHandler)
    (msg : LogMessage) (s : Sinks) (hc : c.recognizes msg.type = false) :
    ErrorHandler.handleError (.mk c nx) msg s = (.returned false, s) := by
  cases c <;> cases msg <;> first | rfl | (exact absurd hc (by decide))

/-- The vocabulary agrees with the code: a node class does not recognize the kind of a
message exactly when its `handleError` answers `false` and writes nothing. -/
theorem not_recognizes_iff_handleError (c : HandlerClass) (nx : Option ErrorHandler)
    (msg : LogMessage) (s : Sinks) :
    c.recognizes msg.type = false
      ↔ ErrorHandler.handleError (.mk c nx) msg s = (.returned false, s) := by
  refine ⟨handleError_of_not_recognizes c nx msg s, fun hh => ?_⟩
  cases c <;> cases msg <;> first
    | rfl
    | (simp [ErrorHandler.handleError, Warning.handleError, Errors.handleError,
        FatalErrors.handleError, LogMessage.type, LogMessage.message] at hh)

/-- Every non-empty sequence of node classes is the sequence of classes of a chain. -/
theorem classes_ofClasses (c : HandlerClass) (cs : List HandlerClass) :
    (ErrorHandler.ofClasses c cs).classes = c :: cs := by
  induction cs generalizing c with
  | nil => rfl
  | cons d ds ih => simp [ErrorHandler.ofClasses, ErrorHandler.classes, ih]

/-- A node that recognizes the kind never consults its `next` pointer. -/
theorem receiveError_of_recognizes (c : HandlerClass) (nx : Option ErrorHandler)
    (msg : LogMessage) (s : Sinks) (hc : c.recognizes msg.type = true) :
    ErrorHandler.receiveError (.mk c nx) msg s = ErrorHandler.receiveError (.mk c none) msg s := by
  cases c <;> cases msg <;> first | rfl | (exact absurd hc (by decide))

/-- The tail node throws on a message whose kind it does not recognize. -/
theorem receiveError_tail_of_not_recognizes (c : HandlerClass) (msg : LogMessage) (s : Sinks)
    (hc : c.recognizes msg.type = false) :
    ErrorHandler.receiveError (.mk c none) msg s
      = (.thrown "Error: The message was not processed!", s) := by
  cases c <;> cases msg <;> first | rfl | (exact absurd hc (by decide))

/-- A node with a successor forwards a message whose kind it does not recognize. -/
theorem receiveError_link_of_not_recognizes (c : HandlerClass) (n : ErrorHandler)
    (msg : LogMessage) (s : Sinks) (hc : c.recognizes msg.type = false) :
    ErrorHandler.receiveError (.mk c (some n)) msg s = n.receiveError msg s := by
  cases c <;> cases msg <;> first | rfl | (exact absurd hc (by decide))

/-- One kind is recognized by at most one node class. -/
theorem recognizes_unique (c d : HandlerClass) (k : LogMessageType)
    (hc : c.recognizes k = true) (hd : d.recognizes k = true) : c = d := by
  cases c <;> cases d <;> cases k <;> first
    | rfl
    | (exact absurd hc (by decide))
    | (exact absurd hd (by decide))

/-- A message none of whose nodes recognizes its kind leaves the chain by the final `throw`. -/
theorem receiveError_unrecognized (msg : LogMessage) (s : Sinks) :
    ∀ h : ErrorHandler, (∀ c ∈ h.classes, c.recognizes msg.type = false) →
      h.receiveError msg s = (.thrown "Error: The message was not processed!", s) := by
  intro h
  induction h using ErrorHandler.chain_induction with
  | tail c =>
    intro hall
    exact receiveError_tail_of_not_recognizes c msg s (hall c (by simp [ErrorHandler.classes]))
  | link c n ih =>
    intro hall
    have hc : c.recognizes msg.type = false := hall c (by simp [ErrorHandler.classes])
    rw [receiveError_link_of_not_recognizes c n msg s hc]
    exact ih (fun d hd => hall d (by simp [ErrorHandler.classes, hd]))

/-- A chain that holds a node recognizing the kind of the message acts as that node alone. -/
theorem receiveError_recognized (msg : LogMessage) (s : Sinks) (c : HandlerClass)
    (hc : c.recognizes msg.type = true) :
    ∀ h : ErrorHandler, c ∈ h.classes →
      h.receiveError msg s = ErrorHandler.receiveError (.mk c none) msg s := by
  intro h
  induction h using ErrorHandler.chain_induction with
  | tail d =>
    intro hmem
    have : c = d := by simpa [ErrorHandler.classes] using hmem
    rw [this]
  | link d n ih =>
    intro hmem
    cases hd : d.recognizes msg.type with
    | true =>
      rw [recognizes_unique c d msg.type hc hd]
      exact receiveError_of_recognizes d (some n) msg s hd
    | false =>
      rw [receiveError_link_of_not_recognizes d n msg s hd]
      apply ih
      have hne : c ≠ d := by
        intro h; rw [h, hd] at hc; exact absurd hc (by decide)
      simpa [ErrorHandler.classes, hne] using hmem

/-- What the node that recognizes the message does, run as a chain of its own. -/
theorem receiveError_single (s : Sinks) :
    ErrorHandler.receiveError (.mk .Warning none) .WarningMessage s
        = (.returned (), ⟨s.console ++ "Warning: The file is open\n", s.file⟩)
    ∧ ErrorHandler.receiveError (.mk .Errors none) .ErrorsMessage s
        = (.returned (), ⟨s.console, s.file ++ "End of file\n"⟩)
    ∧ ErrorHandler.receiveError (.mk .FatalErrors none) .FatalErrorsMessage s
        = (.thrown "Fatal error: File opening error", s) := by
  refine ⟨?_, ?_, ?_⟩
  · show (Outcome.returned (), Sinks.mk (s.console ++ "Warning: " ++ "The file is open" ++ "\n") s.file) = _
    rw [String.append_assoc, String.append_assoc]
    rfl
  · show (Outcome.returned (), Sinks.mk s.console (s.file ++ "End of file" ++ "\n")) = _
    rw [String.append_assoc]
    rfl
  · show (Outcome.thrown ("Fatal error: " ++ "File opening error"), s) = _
    rfl

/-- The recognizing node never ends with the exception of the exhausted chain. -/
theorem single_outcome_ne_unhandled (c : HandlerClass) (msg : LogMessage) (s : Sinks)
    (hc : c.recognizes msg.type = true) :
    (ErrorHandler.receiveError (.mk c none) msg s).1
      ≠ .thrown "Error: The message was not processed!" := by
  cases c <;> cases msg <;> first
    | exact absurd hc (by decide)
    | (rw [(receiveError_single s).1]; exact fun h => nomatch h)
    | (rw [(receiveError_single s).2.1]; exact fun h => nomatch h)
    | (rw [(receiveError_single s).2.2]; intro h; injection h with h; exact absurd h (by decide))

/-- C1: for every chain, message and sinks, `receiveError` ends with the exception
"Error: The message was not processed!" exactly when no node of the chain recognizes the
kind of the message; in particular the chain FatalErrors -> Errors, which has no Warning
node, ends so on a warning message. -/
theorem unhandled_iff_no_node_recognizes :
    (∀ (h : ErrorHandler) (msg : LogMessage) (s : Sinks),
      (h.receiveError msg s).1 = .thrown "Error: The message was not processed!"
        ↔ ∀ c ∈ h.classes, c.recognizes msg.type = false)
    ∧ ∀ s : Sinks, (FatalErrors (some (Errors none))).receiveError .WarningMessage s
        = (.thrown "Error: The message was not processed!", s) := by
  refine ⟨fun h msg s => ⟨fun hthrown c hmem => ?_, fun hall => ?_⟩, fun s => rfl⟩
  · cases hc : c.recognizes msg.type with
    | false => rfl
    | true =>
      rw [receiveError_recognized msg s c hc h hmem] at hthrown
      exact absurd hthrown (single_outcome_ne_unhandled c msg s hc)
  · rw [receiveError_unrecognized msg s h hall]


/-- C2: in every chain with at least one Warning node, from any sink contents, the dispatch
of a message of kind warning returns, appends exactly the line "Warning: The file is open"
to the console and leaves the file as it was. -/
theorem warning_dispatch (h : ErrorHandler) (msg : LogMessage) (s : Sinks)
    (hnode : HandlerClass.Warning ∈ h.classes) (hkind : msg.type = .warning) :
    h.receiveError msg s
      = (.returned (), ⟨s.console ++ "Warning: The file is open\n", s.file⟩) := by
  have hmsg : msg = .WarningMessage := by cases msg <;> first | rfl | exact absurd hkind (by decide)
  subst hmsg
  rw [receiveError_recognized .WarningMessage s .Warning rfl h hnode]
  exact (receiveError_single s).1

/-- The driver's chain, a warning message, an empty console and a file with one line. -/
theorem warning_dispatch_witness :
    HandlerClass.Warning ∈ driverChain.classes
    ∧ LogMessage.WarningMessage.type = .warning
    ∧ driverChain.receiveError .WarningMessage ⟨"", "End of file\n"⟩
        = (.returned (), ⟨"" ++ "Warning: The file is open\n", "End of file\n"⟩) :=
  ⟨by decide, rfl,
    warning_dispatch driverChain .WarningMessage ⟨"", "End of file\n"⟩ (by decide) rfl⟩

/-- C3: in every chain with at least one Errors node, from any sink contents, the dispatch
of a message of kind error returns, appends exactly the line "End of file" (no prefix) to
the file and leaves the console as it was. -/
theorem error_dispatch (h : ErrorHandler) (msg : LogMessage) (s : Sinks)
    (hnode : HandlerClass.Errors ∈ h.classes) (hkind : msg.type = .error) :
    h.receiveError msg s = (.returned (), ⟨s.console, s.file ++ "End of file\n"⟩) := by
  have hmsg : msg = .ErrorsMessage := by cases msg <;> first | rfl | exact absurd hkind (by decide)
  subst hmsg
  rw [receiveError_recognized .ErrorsMessage s .Errors rfl h hnode]
  exact (receiveError_single s).2.1

/-- The driver's chain, an error message, a console with one line and an empty file. -/
theorem error_dispatch_witness :
    HandlerClass.Errors ∈ driverChain.classes
    ∧ LogMessage.ErrorsMessage.type = .error
    ∧ driverChain.receiveError .ErrorsMessage ⟨"Warning: The file is open\n", ""⟩
        = (.returned (), ⟨"Warning: The file is open\n", "" ++ "End of file\n"⟩) :=
  ⟨by decide, rfl,
    error_dispatch driverChain .ErrorsMessage ⟨"Warning: The file is open\n", ""⟩ (by decide) rfl⟩

/-- C4: in every chain with at least one FatalErrors node, from any sink contents, the
dispatch of a message of kind fatal_error does not return: it throws the exception whose
description is exactly "Fatal error: File opening error", and the console and the file are
as they were. -/
theorem fatal_dispatch (h : ErrorHandler) (msg : LogMessage) (s : Sinks)
    (hnode : HandlerClass.FatalErrors ∈ h.classes) (hkind : msg.type = .fatal_error) :
    h.receiveError msg s = (.thrown "Fatal error: File opening error", s) := by
  have hmsg : msg = .FatalErrorsMessage := by
    cases msg <;> first | rfl | exact absurd hkind (by decide)
  subst hmsg
  rw [receiveError_recognized .FatalErrorsMessage s .FatalErrors rfl h hnode]
  exact (receiveError_single s).2.2

/-- The driver's chain, a fatal message, and sinks that both hold a line already. -/
theorem fatal_dispatch_witness :
    HandlerClass.FatalErrors ∈ driverChain.classes
    ∧ LogMessage.FatalErrorsMessage.type = .fatal_error
    ∧ driverChain.receiveError .FatalErrorsMessage ⟨"Warning: The file is open\n", "End of file\n"⟩
        = (.thrown "Fatal error: File opening error",
            ⟨"Warning: The file is open\n", "End of file\n"⟩) :=
  ⟨by decide, rfl,
    fatal_dispatch driverChain .FatalErrorsMessage
      ⟨"Warning: The file is open\n", "End of file\n"⟩ (by decide) rfl⟩

/-- C5: the dispatch of a message of kind unknown through the driver's chain, and through
every chain of Warning, Errors and FatalErrors nodes, throws the exception with description
"Error: The message was not processed!" and writes nothing to the console or the file. -/
theorem unknown_dispatch :
    (∀ s : Sinks, driverChain.receiveError .UnknownMessage s
        = (.thrown "Error: The message was not processed!", s))
    ∧ ∀ (h : ErrorHandler) (msg : LogMessage) (s : Sinks), msg.type = .unknown_message →
        h.receiveError msg s = (.thrown "Error: The message was not processed!", s) := by
  refine ⟨fun s => rfl, fun h msg s hkind => ?_⟩
  apply receiveError_unrecognized
  intro c _
  rw [hkind]
  cases c <;> rfl

/-- The chain that is a single Errors node, on the unknown message. -/
theorem unknown_dispatch_witness :
    LogMessage.UnknownMessage.type = .unknown_message
    ∧ (Errors none).receiveError .UnknownMessage ⟨"a", "b"⟩
        = (.thrown "Error: The message was not processed!", ⟨"a", "b"⟩) :=
  ⟨rfl, unknown_dispatch.2 (Errors none) .UnknownMessage ⟨"a", "b"⟩ rfl⟩


/-- C6: `UnknownMessage::message` raises no error: its `return nullptr;` hands the null
pointer to the `std::string` being returned, and it is the only variant whose text is
built that way. -/
theorem unknown_message_text_is_null :
    LogMessage.UnknownMessage.message = none
    ∧ ∀ msg : LogMessage, msg.message = none ↔ msg = .UnknownMessage := by
  refine ⟨rfl, fun msg => ?_⟩
  cases msg <;> simp [LogMessage.message]

/-- C7: every message variant has a fixed kind and a fixed text, functions of the variant
alone: WarningMessage is a warning with text "The file is open", ErrorsMessage an error
with text "End of file", FatalErrorsMessage a fatal_error with text "File opening error",
UnknownMessage has kind unknown_message; `type` is a total function, and distinct variants
have distinct kinds. -/
theorem message_variants_fixed :
    (LogMessage.WarningMessage.type = .warning
      ∧ LogMessage.WarningMessage.message = some "The file is open")
    ∧ (LogMessage.ErrorsMessage.type = .error
      ∧ LogMessage.ErrorsMessage.message = some "End of file")
    ∧ (LogMessage.FatalErrorsMessage.type = .fatal_error
      ∧ LogMessage.FatalErrorsMessage.message = some "File opening error")
    ∧ LogMessage.UnknownMessage.type = .unknown_message
    ∧ (∀ msg : LogMessage, ∃ k : LogMessageType, msg.type = k)
    ∧ Function.Injective LogMessage.type := by
  refine ⟨⟨rfl, rfl⟩, ⟨rfl, rfl⟩, ⟨rfl, rfl⟩, rfl, fun msg => ⟨msg.type, rfl⟩, ?_⟩
  intro a b hab
  cases a <;> cases b <;> first | rfl | exact absurd hab (by decide)


/-- The literal after a sink is the sink followed by the line and the newline. -/
theorem append_line (a l : String) : a ++ l ++ "\n" = a ++ (l ++ "\n") :=
  String.append_assoc a l "\n"

/-- C8: for every chain, message and sink contents, one `receiveError` call appends at
most one line over the console and the file together: either both sinks are as before, or
exactly one newline-free line (with its newline) was appended to the console and the file
is as before, or exactly one such line was appended to the file and the console is as
before. -/
theorem at_most_one_line (h : ErrorHandler) (msg : LogMessage) (s : Sinks) :
    (h.receiveError msg s).2 = s
    ∨ (∃ l : String, '\n' ∉ l.toList
        ∧ (h.receiveError msg s).2 = ⟨s.console ++ l ++ "\n", s.file⟩)
    ∨ (∃ l : String, '\n' ∉ l.toList
        ∧ (h.receiveError msg s).2 = ⟨s.console, s.file ++ l ++ "\n"⟩) := by
  by_cases hex : ∃ c ∈ h.classes, c.recognizes msg.type = true
  · obtain ⟨c, hmem, hc⟩ := hex
    rw [receiveError_recognized msg s c hc h hmem]
    cases c <;> cases msg <;> first
      | exact absurd hc (by decide)
      | (right; left
         refine ⟨"Warning: The file is open", by decide, ?_⟩
         rw [(receiveError_single s).1, append_line]; rfl)
      | (right; right
         refine ⟨"End of file", by decide, ?_⟩
         rw [(receiveError_single s).2.1, append_line]; rfl)
      | (left; rw [(receiveError_single s).2.2])
  · left
    rw [receiveError_unrecognized msg s h]
    intro c hmem
    cases hc : c.recognizes msg.type with
    | false => rfl
    | true => exact absurd ⟨c, hmem, hc⟩ hex

/-- C9: for every chain, message and sink contents, when `receiveError` ends with an
exception (the unhandled one or the fatal one), the console and the file are exactly as
they were before the call. -/
theorem failure_leaves_sinks (h : ErrorHandler) (msg : LogMessage) (s : Sinks) (what : String)
    (hfail : (h.receiveError msg s).1 = .thrown what) :
    (h.receiveError msg s).2 = s := by
  by_cases hex : ∃ c ∈ h.classes, c.recognizes msg.type = true
  · obtain ⟨c, hmem, hc⟩ := hex
    rw [receiveError_recognized msg s c hc h hmem] at hfail ⊢
    cases c <;> cases msg <;> first
      | exact absurd hc (by decide)
      | (rw [(receiveError_single s).1] at hfail; exact nomatch hfail)
      | (rw [(receiveError_single s).2.1] at hfail; exact nomatch hfail)
      | rw [(receiveError_single s).2.2]
  · rw [receiveError_unrecognized msg s h]
    intro c hmem
    cases hc : c.recognizes msg.type with
    | false => rfl
    | true => exact absurd ⟨c, hmem, hc⟩ hex

/-- The driver's chain fails on the fatal message and both sinks keep their line. -/
theorem failure_leaves_sinks_witness :
    (driverChain.receiveError .FatalErrorsMessage ⟨"Warning: The file is open\n", "End of file\n"⟩).1
        = .thrown "Fatal error: File opening error"
    ∧ (driverChain.receiveError .FatalErrorsMessage ⟨"Warning: The file is open\n", "End of file\n"⟩).2
        = ⟨"Warning: The file is open\n", "End of file\n"⟩ :=
  ⟨by decide,
    failure_leaves_sinks driverChain .FatalErrorsMessage
      ⟨"Warning: The file is open\n", "End of file\n"⟩ "Fatal error: File opening error"
      (by decide)⟩


/-- A node that recognizes the kind is called, reads the text, and ends the dispatch. -/
theorem receiveErrorTraced_of_recognizes (c : HandlerClass) (nx : Option ErrorHandler)
    (msg : LogMessage) (s : Sinks) (hc : c.recognizes msg.type = true) :
    ErrorHandler.receiveErrorTraced (.mk c nx) msg s
      = ([.handleError (.mk c nx), .message msg], ErrorHandler.receiveError (.mk c nx) msg s) := by
  cases c <;> cases msg <;> first | rfl | (exact absurd hc (by decide))

/-- The tail node is called and reads no text when it does not recognize the kind. -/
theorem receiveErrorTraced_tail_of_not_recognizes (c : HandlerClass) (msg : LogMessage)
    (s : Sinks) (hc : c.recognizes msg.type = false) :
    ErrorHandler.receiveErrorTraced (.mk c none) msg s
      = ([.handleError (.mk c none)], (.thrown "Error: The message was not processed!", s)) := by
  cases c <;> cases msg <;> first | rfl | (exact absurd hc (by decide))

/-- A node with a successor that does not recognize the kind is called, reads no text, and
hands the message on. -/
theorem receiveErrorTraced_link_of_not_recognizes (c : HandlerClass) (n : ErrorHandler)
    (msg : LogMessage) (s : Sinks) (hc : c.recognizes msg.type = false) :
    ErrorHandler.receiveErrorTraced (.mk c (some n)) msg s
      = (.handleError (.mk c (some n)) :: (n.receiveErrorTraced msg s).1,
          (n.receiveErrorTraced msg s).2) := by
  cases c <;> cases msg <;> first | rfl | (exact absurd hc (by decide))

/-- Dropping the record of calls gives back `receiveError`. -/
theorem receiveErrorTraced_snd (msg : LogMessage) (s : Sinks) :
    ∀ h : ErrorHandler, (h.receiveErrorTraced msg s).2 = h.receiveError msg s := by
  intro h
  induction h using ErrorHandler.chain_induction with
  | tail c =>
    cases hc : c.recognizes msg.type with
    | true => rw [receiveErrorTraced_of_recognizes c none msg s hc]
    | false =>
      rw [receiveErrorTraced_tail_of_not_recognizes c msg s hc,
        receiveError_tail_of_not_recognizes c msg s hc]
  | link c n ih =>
    cases hc : c.recognizes msg.type with
    | true => rw [receiveErrorTraced_of_recognizes c (some n) msg s hc]
    | false =>
      rw [receiveErrorTraced_link_of_not_recognizes c n msg s hc,
        receiveError_link_of_not_recognizes c n msg s hc]
      exact ih

/-- The record of a dispatch: the nodes up to and with the first one that recognizes the
kind, each called once in chain order, and one reading of the text after the call of a
recognizing node. -/
theorem receiveErrorTraced_fst (msg : LogMessage) (s : Sinks) :
    ∀ h : ErrorHandler, (h.receiveErrorTraced msg s).1
      = ((h.nodes.take (h.nodes.findIdx (fun n => n.cls.recognizes msg.type) + 1)).map
          Event.handleError)
        ++ (if h.classes.any (fun c => c.recognizes msg.type) then [Event.message msg] else []) := by
  intro h
  induction h using ErrorHandler.chain_induction with
  | tail c =>
    cases hc : c.recognizes msg.type with
    | true =>
      rw [receiveErrorTraced_of_recognizes c none msg s hc]
      simp [ErrorHandler.nodes, ErrorHandler.classes, ErrorHandler.cls, List.findIdx_cons, hc]
    | false =>
      rw [receiveErrorTraced_tail_of_not_recognizes c msg s hc]
      simp [ErrorHandler.nodes, ErrorHandler.classes, ErrorHandler.cls, List.findIdx_cons, hc]
  | link c n ih =>
    cases hc : c.recognizes msg.type with
    | true =>
      rw [receiveErrorTraced_of_recognizes c (some n) msg s hc]
      simp [ErrorHandler.nodes, ErrorHandler.classes, ErrorHandler.cls, List.findIdx_cons, hc]
    | false =>
      rw [receiveErrorTraced_link_of_not_recognizes c n msg s hc]
      simp only [ih]
      simp [ErrorHandler.nodes, ErrorHandler.classes, ErrorHandler.cls, List.findIdx_cons, hc]

/-- The nodes and the classes of a chain go together. -/
theorem nodes_map_cls : ∀ h : ErrorHandler, h.nodes.map ErrorHandler.cls = h.classes := by
  intro h
  induction h using ErrorHandler.chain_induction with
  | tail c => rfl
  | link c n ih => simp [ErrorHandler.nodes, ErrorHandler.classes, ErrorHandler.cls, ih]

/-- Reading off the called nodes from a record of calls. -/
theorem consulted_append (xs : List ErrorHandler) (ms : List LogMessage) :
    consulted (xs.map Event.handleError ++ ms.map Event.message) = xs := by
  induction xs with
  | nil =>
    induction ms with
    | nil => rfl
    | cons m ms ih => simpa [consulted] using ih
  | cons x xs ih => simpa [consulted] using ih

/-- The driver's chain on a warning message, from any sinks. -/
theorem driverChain_warning (s : Sinks) :
    driverChain.receiveError .WarningMessage s
      = (.returned (), ⟨s.console ++ "Warning: The file is open\n", s.file⟩) :=
  (receiveError_recognized .WarningMessage s .Warning rfl driverChain (by decide)).trans
    (receiveError_single s).1

/-- The driver's chain on an error message, from any sinks. -/
theorem driverChain_error (s : Sinks) :
    driverChain.receiveError .ErrorsMessage s
      = (.returned (), ⟨s.console, s.file ++ "End of file\n"⟩) :=
  (receiveError_recognized .ErrorsMessage s .Errors rfl driverChain (by decide)).trans
    (receiveError_single s).2.1

/-- C11: `main` with the chain FatalErrors -> Errors -> Warning -> Warning and the messages
WarningMessage, ErrorsMessage, UnknownMessage, started with an empty console and a file
holding `F`: the first two dispatches return, the third throws and ends the `try` block,
the console ends as the line "Warning: The file is open" followed by the one line
"Error: The message was not processed!", the file ends as `F` followed by the one line
"End of file", and `main` returns 0. -/
theorem main_end_to_end (F : String) :
    main ⟨"", F⟩
        = (.returned 0,
            ⟨"Warning: The file is open\nError: The message was not processed!\n",
              F ++ "End of file\n"⟩)
    ∧ driverChain.receiveError .WarningMessage ⟨"", F⟩
        = (.returned (), ⟨"Warning: The file is open\n", F⟩)
    ∧ driverChain.receiveError .ErrorsMessage ⟨"Warning: The file is open\n", F⟩
        = (.returned (), ⟨"Warning: The file is open\n", F ++ "End of file\n"⟩)
    ∧ driverChain.receiveError .UnknownMessage
          ⟨"Warning: The file is open\n", F ++ "End of file\n"⟩
        = (.thrown "Error: The message was not processed!",
            ⟨"Warning: The file is open\n", F ++ "End of file\n"⟩)
    ∧ tryBlock driverChain [.WarningMessage, .ErrorsMessage, .UnknownMessage] ⟨"", F⟩
        = (.thrown "Error: The message was not processed!",
            ⟨"Warning: The file is open\n", F ++ "End of file\n"⟩) := by
  have hw : driverChain.receiveError .WarningMessage ⟨"", F⟩
      = (.returned (), ⟨"Warning: The file is open\n", F⟩) := driverChain_warning ⟨"", F⟩
  have he : driverChain.receiveError .ErrorsMessage ⟨"Warning: The file is open\n", F⟩
      = (.returned (), ⟨"Warning: The file is open\n", F ++ "End of file\n"⟩) :=
    driverChain_error ⟨"Warning: The file is open\n", F⟩
  have hu : driverChain.receiveError .UnknownMessage
        ⟨"Warning: The file is open\n", F ++ "End of file\n"⟩
      = (.thrown "Error: The message was not processed!",
          ⟨"Warning: The file is open\n", F ++ "End of file\n"⟩) := rfl
  have ht : tryBlock driverChain [.WarningMessage, .ErrorsMessage, .UnknownMessage] ⟨"", F⟩
      = (.thrown "Error: The message was not processed!",
          ⟨"Warning: The file is open\n", F ++ "End of file\n"⟩) := by
    simp only [tryBlock, hw, he, hu]
  refine ⟨?_, hw, he, hu, ht⟩
  simp only [main, driver, ht]
  rfl

/-- The first call of every dispatch is the virtual call on the entry node. -/
theorem consulted_head (msg : LogMessage) (s : Sinks) (h : ErrorHandler) :
    (consulted (h.receiveErrorTraced msg s).1).head? = some h := by
  induction h using ErrorHandler.chain_induction with
  | tail c =>
    cases hc : c.recognizes msg.type with
    | true => rw [receiveErrorTraced_of_recognizes c none msg s hc]; rfl
    | false => rw [receiveErrorTraced_tail_of_not_recognizes c msg s hc]; rfl
  | link c n _ =>
    cases hc : c.recognizes msg.type with
    | true => rw [receiveErrorTraced_of_recognizes c (some n) msg s hc]; rfl
    | false => rw [receiveErrorTraced_link_of_not_recognizes c n msg s hc]; rfl

/-- C12, as stated, fails: on a warning message pushed through the head of the driver's
chain the first node tried is the head itself, the outermost FatalErrors node, and the
innermost Warning node is not tried at all. -/
theorem innermost_not_tried_first :
    consulted (driverChain.receiveErrorTraced .WarningMessage ⟨"", ""⟩).1
        = [driverChain, Errors (some (Warning (some (Warning none)))),
            Warning (some (Warning none))]
    ∧ (consulted (driverChain.receiveErrorTraced .WarningMessage ⟨"", ""⟩).1).head?
        ≠ some (Warning none)
    ∧ Warning none ∉ consulted (driverChain.receiveErrorTraced .WarningMessage ⟨"", ""⟩).1 := by
  refine ⟨rfl, ?_, ?_⟩
  · rw [consulted_head]
    simp [driverChain, FatalErrors, Warning]
  · show Warning none ∉ [driverChain, Errors (some (Warning (some (Warning none)))),
      Warning (some (Warning none))]
    simp [driverChain, FatalErrors, Errors, Warning]

/-- C12, amended: for every chain the node tried first is the entry node, which in the
driver's chain is the outermost handler, the FatalErrors node; the innermost handler, a
Warning node, is tried exactly for the message no node recognizes, the unknown one, and
then it is tried last, after the three nodes that own it. -/
theorem entry_node_tried_first :
    (∀ (h : ErrorHandler) (msg : LogMessage) (s : Sinks),
      (consulted (h.receiveErrorTraced msg s).1).head? = some h
      ∧ (h.receiveErrorTraced msg s).2 = h.receiveError msg s)
    ∧ driverChain.cls = .FatalErrors
    ∧ (∀ (msg : LogMessage) (s : Sinks),
        Warning none ∈ consulted (driverChain.receiveErrorTraced msg s).1
          ↔ msg = .UnknownMessage)
    ∧ ∀ s : Sinks, consulted (driverChain.receiveErrorTraced .UnknownMessage s).1
        = [driverChain, Errors (some (Warning (some (Warning none)))),
            Warning (some (Warning none)), Warning none] := by
  refine ⟨fun h msg s => ⟨consulted_head msg s h, receiveErrorTraced_snd msg s h⟩, rfl,
    fun msg s => ?_, fun s => rfl⟩
  cases msg
  · show Warning none ∈ [driverChain, Errors (some (Warning (some (Warning none)))),
      Warning (some (Warning none))] ↔ _
    simp [driverChain, FatalErrors, Errors, Warning]
  · show Warning none ∈ [driverChain, Errors (some (Warning (some (Warning none))))] ↔ _
    simp [driverChain, FatalErrors, Errors, Warning]
  · show Warning none ∈ [driverChain] ↔ _
    simp [driverChain, FatalErrors, Warning]
  · show Warning none ∈ [driverChain, Errors (some (Warning (some (Warning none)))),
      Warning (some (Warning none)), Warning none] ↔ _
    simp

/-- The nodes called in a dispatch: the nodes of the chain up to and with the first one
that recognizes the kind. -/
theorem consulted_eq_take (msg : LogMessage) (s : Sinks) (h : ErrorHandler) :
    consulted (h.receiveErrorTraced msg s).1
      = h.nodes.take (h.nodes.findIdx (fun n => n.cls.recognizes msg.type) + 1) := by
  rw [receiveErrorTraced_fst]
  by_cases hany : h.classes.any (fun c => c.recognizes msg.type) = true
  · rw [if_pos hany]
    exact consulted_append _ [msg]
  · rw [if_neg hany]
    exact consulted_append _ []

/-- No node of a chain owns a longer chain than the entry node does. -/
theorem nodes_length_le : ∀ h : ErrorHandler, ∀ n ∈ h.nodes,
    n.classes.length ≤ h.classes.length := by
  intro h
  induction h using ErrorHandler.chain_induction with
  | tail c =>
    intro n hn
    have : n = .mk c none := by simpa [ErrorHandler.nodes] using hn
    rw [this]
  | link c m ih =>
    intro n hn
    simp only [ErrorHandler.nodes, List.mem_cons] at hn
    rcases hn with hn | hn
    · rw [hn]
    · have := ih n hn
      simp only [ErrorHandler.classes, List.length_cons]
      omega

/-- The nodes of a chain are pairwise different objects. -/
theorem nodes_nodup : ∀ h : ErrorHandler, h.nodes.Nodup := by
  intro h
  induction h using ErrorHandler.chain_induction with
  | tail c => simp [ErrorHandler.nodes]
  | link c m ih =>
    simp only [ErrorHandler.nodes, List.nodup_cons]
    refine ⟨fun hmem => ?_, ih⟩
    have := nodes_length_le m _ hmem
    simp only [ErrorHandler.classes, List.length_cons] at this
    omega

/-- The outcome of a dispatch is what the first recognizing node makes of the message, and
the exception of the exhausted chain when there is no such node. -/
theorem receiveError_eq_first (msg : LogMessage) (s : Sinks) :
    ∀ h : ErrorHandler, h.receiveError msg s
      = (match h.nodes.find? (fun n => n.cls.recognizes msg.type) with
          | some n => handledBy n msg s
          | none => (.thrown "Error: The message was not processed!", s)) := by
  intro h
  induction h using ErrorHandler.chain_induction with
  | tail c => cases c <;> cases msg <;> rfl
  | link c m ih =>
    cases hc : c.recognizes msg.type with
    | true =>
      have hf : (ErrorHandler.mk c (some m)).nodes.find? (fun n => n.cls.recognizes msg.type)
          = some (.mk c (some m)) := by
        simp [ErrorHandler.nodes, List.find?_cons, ErrorHandler.cls, hc]
      rw [hf]
      cases c <;> cases msg <;> first | rfl | (exact absurd hc (by decide))
    | false =>
      have hf : (ErrorHandler.mk c (some m)).nodes.find? (fun n => n.cls.recognizes msg.type)
          = m.nodes.find? (fun n => n.cls.recognizes msg.type) := by
        simp [ErrorHandler.nodes, List.find?_cons, ErrorHandler.cls, hc]
      rw [hf, receiveError_link_of_not_recognizes c m msg s hc]
      exact ih

/-- C13: a dispatch is one linear traversal and `receiveError` is a total function.  For
every chain, message and sinks the nodes called are, in chain order from the entry node,
the nodes up to and with the first one that recognizes the kind: index of the first match
plus one of them, all of them when none matches, none called twice; the outcome is what
that first recognizing node makes of the message.  In the driver's chain a warning message
is taken by the first Warning node reached and the innermost Warning node is not called. -/
theorem single_linear_traversal :
    (∀ (h : ErrorHandler) (msg : LogMessage) (s : Sinks),
      (h.receiveErrorTraced msg s).2 = h.receiveError msg s
      ∧ consulted (h.receiveErrorTraced msg s).1
          = h.nodes.take (h.nodes.findIdx (fun n => n.cls.recognizes msg.type) + 1)
      ∧ (consulted (h.receiveErrorTraced msg s).1).length
          = (if h.nodes.any (fun n => n.cls.recognizes msg.type)
              then h.nodes.findIdx (fun n => n.cls.recognizes msg.type) + 1
              else h.nodes.length)
      ∧ (consulted (h.receiveErrorTraced msg s).1).Nodup
      ∧ h.receiveError msg s
          = (match h.nodes.find? (fun n => n.cls.recognizes msg.type) with
              | some n => handledBy n msg s
              | none => (.thrown "Error: The message was not processed!", s)))
    ∧ ∀ s : Sinks,
        consulted (driverChain.receiveErrorTraced .WarningMessage s).1
          = [driverChain, Errors (some (Warning (some (Warning none)))),
              Warning (some (Warning none))]
        ∧ Warning none ∉ consulted (driverChain.receiveErrorTraced .WarningMessage s).1
        ∧ driverChain.receiveError .WarningMessage s
            = handledBy (Warning (some (Warning none))) .WarningMessage s := by
  refine ⟨fun h msg s => ⟨receiveErrorTraced_snd msg s h, consulted_eq_take msg s h, ?_, ?_,
    receiveError_eq_first msg s h⟩, fun s => ⟨rfl, ?_, rfl⟩⟩
  · rw [consulted_eq_take, List.length_take]
    by_cases hany : h.nodes.any (fun n => n.cls.recognizes msg.type) = true
    · rw [if_pos hany]
      have hlt : h.nodes.findIdx (fun n => n.cls.recognizes msg.type) < h.nodes.length :=
        List.findIdx_lt_length_of_exists (by simpa using hany)
      omega
    · rw [if_neg hany]
      have hle : h.nodes.length ≤ h.nodes.findIdx (fun n => n.cls.recognizes msg.type) := by
        rw [List.findIdx_eq_length.2 (by simpa using hany)]
      omega
  · rw [consulted_eq_take]
    exact (List.take_sublist _ _).nodup (nodes_nodup h)
  · show Warning none ∉ [driverChain, Errors (some (Warning (some (Warning none)))),
      Warning (some (Warning none))]
    simp [driverChain, FatalErrors, Errors, Warning]

/-- C14: two chains whose nodes have the same set of classes, in whatever order and however
often repeated, give the same result on every message from every sinks: the same return or
exception with the same description, and the same final console and file. -/
theorem order_independence (h₁ h₂ : ErrorHandler) (msg : LogMessage) (s : Sinks)
    (hsame : ∀ c : HandlerClass, c ∈ h₁.classes ↔ c ∈ h₂.classes) :
    h₁.receiveError msg s = h₂.receiveError msg s := by
  by_cases hex : ∃ c ∈ h₁.classes, c.recognizes msg.type = true
  · obtain ⟨c, hmem, hc⟩ := hex
    rw [receiveError_recognized msg s c hc h₁ hmem,
      receiveError_recognized msg s c hc h₂ ((hsame c).1 hmem)]
  · have hnone : ∀ c ∈ h₁.classes, c.recognizes msg.type = false := by
      intro c hmem
      cases hc : c.recognizes msg.type with
      | false => rfl
      | true => exact absurd ⟨c, hmem, hc⟩ hex
    rw [receiveError_unrecognized msg s h₁ hnone,
      receiveError_unrecognized msg s h₂ (fun c hmem => hnone c ((hsame c).2 hmem))]

/-- The driver's chain against the chain Warning -> Errors -> FatalErrors, on the fatal
message. -/
theorem order_independence_witness :
    (∀ c : HandlerClass, c ∈ driverChain.classes
        ↔ c ∈ (Warning (some (Errors (some (FatalErrors none))))).classes)
    ∧ driverChain.receiveError .FatalErrorsMessage ⟨"a", "b"⟩
        = (Warning (some (Errors (some (FatalErrors none))))).receiveError
            .FatalErrorsMessage ⟨"a", "b"⟩ :=
  ⟨fun c => by cases c <;> decide,
    order_independence driverChain (Warning (some (Errors (some (FatalErrors none)))))
      .FatalErrorsMessage ⟨"a", "b"⟩ (fun c => by cases c <;> decide)⟩

/-- The calls of `msg.message()` made inside `handleError`: one when the node recognizes
the kind, none otherwise. -/
theorem handleErrorTraced_fst (n : ErrorHandler) (msg : LogMessage) (s : Sinks) :
    (n.handleErrorTraced msg s).1
      = (if n.cls.recognizes msg.type then [Event.message msg] else []) := by
  rcases n with ⟨c, nx⟩
  cases c <;> cases msg <;> rfl

/-- C15: the text of a message is read only inside a node that recognizes its kind.  No
dispatch, of any message through any chain, calls `message()` on the unknown message; a
dispatch of a message of kind unknown_message makes no call of `message()` at all, its
record of calls being one `handleError` per node, and it does not end in undefined
behaviour. -/
theorem unknown_text_never_read :
    (∀ (n : ErrorHandler) (msg : LogMessage) (s : Sinks),
      (n.handleErrorTraced msg s).2 = n.handleError msg s
      ∧ ((n.handleErrorTraced msg s).1 ≠ [] → n.cls.recognizes msg.type = true))
    ∧ (∀ (h : ErrorHandler) (msg : LogMessage) (s : Sinks),
        (h.receiveErrorTraced msg s).2 = h.receiveError msg s
        ∧ Event.message .UnknownMessage ∉ (h.receiveErrorTraced msg s).1
        ∧ (h.receiveError msg s).1 ≠ .undefined)
    ∧ ∀ (h : ErrorHandler) (msg : LogMessage) (s : Sinks), msg.type = .unknown_message →
        (h.receiveErrorTraced msg s).1 = h.nodes.map Event.handleError := by
  refine ⟨fun n msg s => ⟨?_, fun hne => ?_⟩, fun h msg s => ⟨receiveErrorTraced_snd msg s h, ?_, ?_⟩,
    fun h msg s hkind => ?_⟩
  · rcases n with ⟨c, nx⟩
    cases c <;> cases msg <;> rfl
  · rw [handleErrorTraced_fst] at hne
    cases hc : n.cls.recognizes msg.type with
    | true => rfl
    | false => rw [hc] at hne; exact absurd rfl hne
  · rw [receiveErrorTraced_fst]
    intro hmem
    rcases List.mem_append.1 hmem with hm | hm
    · obtain ⟨n, _, hn⟩ := List.mem_map.1 hm
      exact nomatch hn
    · by_cases hany : h.classes.any (fun c => c.recognizes msg.type) = true
      · rw [if_pos hany] at hm
        have hev := List.mem_singleton.1 hm
        injection hev with hev
        have hmsg : msg = .UnknownMessage := hev.symm
        rw [hmsg] at hany
        obtain ⟨c, _, hc⟩ := List.any_eq_true.1 hany
        cases c <;> exact absurd hc (by decide)
      · rw [if_neg hany] at hm
        simp at hm
  · rw [receiveError_eq_first]
    cases hf : h.nodes.find? (fun n => n.cls.recognizes msg.type) with
    | none => exact fun hh => nomatch hh
    | some n =>
      have hp : n.cls.recognizes msg.type = true := by
        simpa using List.find?_some hf
      rcases n with ⟨c, nx⟩
      cases c <;> cases msg <;> first
        | exact absurd hp (by decide)
        | exact fun hh => nomatch hh
  · rw [receiveErrorTraced_fst]
    have hany : ¬ h.classes.any (fun c => c.recognizes msg.type) = true := by
      intro hany
      obtain ⟨c, _, hc⟩ := List.any_eq_true.1 hany
      rw [hkind] at hc
      cases c <;> exact absurd hc (by decide)
    have hall : ∀ n ∈ h.nodes, ¬ (n.cls.recognizes msg.type = true) := by
      intro n _
      rw [hkind]
      cases n.cls <;> decide
    rw [if_neg hany, List.append_nil, List.findIdx_eq_length.2 (by simpa using hall),
      List.take_of_length_le (Nat.le_succ _)]

/-- The chain of one FatalErrors node on the unknown message. -/
theorem unknown_text_never_read_witness :
    LogMessage.UnknownMessage.type = .unknown_message
    ∧ ((FatalErrors none).receiveErrorTraced .UnknownMessage ⟨"", ""⟩).1
        = (FatalErrors none).nodes.map Event.handleError :=
  ⟨rfl, unknown_text_never_read.2.2 (FatalErrors none) .UnknownMessage ⟨"", ""⟩ rfl⟩

/-- C16: the sinks are append-only under dispatch.  For every chain, message and initial
contents, whether `receiveError` returns or throws, the final console is the initial
console followed by some characters and the final file is the initial file followed by
some characters: the initial contents of each sink are a prefix of its final contents. -/
theorem sinks_append_only (h : ErrorHandler) (msg : LogMessage) (s : Sinks) :
    (∃ c f : String, (h.receiveError msg s).2 = ⟨s.console ++ c, s.file ++ f⟩)
    ∧ s.console.toList <+: (h.receiveError msg s).2.console.toList
    ∧ s.file.toList <+: (h.receiveError msg s).2.file.toList := by
  have hex : ∃ c f : String, (h.receiveError msg s).2 = ⟨s.console ++ c, s.file ++ f⟩ := by
    by_cases hrec : ∃ c ∈ h.classes, c.recognizes msg.type = true
    · obtain ⟨c, hmem, hc⟩ := hrec
      rw [receiveError_recognized msg s c hc h hmem]
      cases c <;> cases msg <;> first
        | exact absurd hc (by decide)
        | (refine ⟨"Warning: The file is open\n", "", ?_⟩
           rw [(receiveError_single s).1, String.append_empty])
        | (refine ⟨"", "End of file\n", ?_⟩
           rw [(receiveError_single s).2.1, String.append_empty])
        | (refine ⟨"", "", ?_⟩
           rw [(receiveError_single s).2.2, String.append_empty, String.append_empty])
    · refine ⟨"", "", ?_⟩
      rw [receiveError_unrecognized msg s h, String.append_empty, String.append_empty]
      intro c hmem
      cases hc : c.recognizes msg.type with
      | false => rfl
      | true => exact absurd ⟨c, hmem, hc⟩ hrec
  obtain ⟨c, f, hcf⟩ := hex
  refine ⟨⟨c, f, hcf⟩, ?_, ?_⟩
  · rw [hcf]
    exact ⟨c.toList, by simp⟩
  · rw [hcf]
    exact ⟨f.toList, by simp⟩

end HomeWorkCPP
